import Mathlib

/-!
# Verification of xshaper run tracking and resource recorders

Shallow embedding of the core logic of the `xshaper` package:
run registry stacks (`src/xshaper/run.py`), the time and compute
recorders (`src/xshaper/recorders/time.py`, `compute.py`), the
monitor thread loop (`src/xshaper/monitor.py`), and the atomic
save protocol (`Run.save`).

Python floats are modelled as exact rationals; `uuid4` identifiers
as natural numbers with object identity given by id equality
(uuid uniqueness); Python lists as Lean lists in append order
(index 0 first, `[-1]` = `getLast?`).
-/

namespace XShaper

/-! ## Run registry (src/xshaper/run.py) -/

/-- The fields of a `Run` object and its `RunRecord` that the registry
claims depend on.  `parentId`, `rootId`, `anchorId` mirror the record
fields of the same names (defaults `None` per `model.py`); `startTime`
mirrors `record.start_time` (as set by `begin`); `isAnchor` mirrors
`Run.is_anchor`. -/
structure Run where
  id : Nat
  parentId : Option Nat := none
  rootId : Option Nat := none
  anchorId : Option Nat := none
  isAnchor : Bool := false
  startTime : Option ℚ := none
  deriving DecidableEq, Repr

/-- The mutable state of `RunState`: the active-run stack `_stack` and
the anchor stack `_anchors`, both in Python append order. -/
structure RunState where
  stack : List Run := []
  anchors : List Run := []
  deriving DecidableEq, Repr

/-- `RunState.current`: top of the active stack, `None` if empty. -/
def RunState.current (s : RunState) : Option Run :=
  s.stack.getLast?

/-- `RunState.root`: bottom (`_stack[0]`) of the active stack. -/
def RunState.root (s : RunState) : Option Run :=
  s.stack.head?

/-- `RunState.anchor`: top of the anchor stack. -/
def RunState.anchor (s : RunState) : Option Run :=
  s.anchors.getLast?

/-- `RunState.push_run`: append to the stack; additionally append to the
anchor stack when `anchor` is set, or when no anchors exist yet and the
run has no parent. -/
def RunState.push_run (s : RunState) (run : Run) (anchor : Bool) : RunState :=
  { stack := s.stack ++ [run]
    anchors :=
      if anchor || (s.anchors.isEmpty && run.parentId == none) then
        s.anchors ++ [run]
      else
        s.anchors }

/-- Errors raised by `RunState.pop_run`: `indexError` when the stack is
empty (Python `IndexError` from `self._stack[-1]`), `notCurrent` for the
explicit `RuntimeError("cannot pop non-current run")`. -/
inductive PopError where
  | indexError
  | notCurrent
  deriving DecidableEq, Repr

/-- `RunState.pop_run`: fail unless `run` is the top of the active stack;
on success drop it, and drop it from the anchor stack too when it is that
stack's top.  The Python code raises before any mutation, so an error
leaves both stacks untouched; the `Except` embedding reflects that by
producing no successor state on error. -/
def RunState.pop_run (s : RunState) (run : Run) : Except PopError RunState :=
  match s.stack.getLast? with
  | none => .error .indexError
  | some top =>
      if top.id = run.id then
        .ok { stack := s.stack.dropLast
              anchors :=
                if (s.anchors.getLast?).map Run.id = some run.id then
                  s.anchors.dropLast
                else
                  s.anchors }
      else
        .error .notCurrent

/-- `Run.__init__`: allocate `newId`, default the parent to the current
run's id when no explicit parent is given, and capture `root_id` and
`anchor_id` from the registry state at construction time (the record
defaults, `None`, survive when the respective stack is empty). -/
def mkRun (s : RunState) (newId : Nat) (parent : Option Nat) (anchor : Bool) : Run :=
  let parentId :=
    match parent with
    | some p => some p
    | none => (s.current).map Run.id
  { id := newId
    parentId := parentId
    rootId := (s.root).map Run.id
    anchorId := (s.anchor).map Run.id
    isAnchor := anchor
    startTime := none }

/-- `Run.begin` at wall-clock time `t`: stamp `record.start_time` and push
the run (with its anchor flag) onto the registry.  Returns the updated
registry and the updated run object. -/
def beginRun (s : RunState) (r : Run) (t : ℚ) : RunState × Run :=
  let r2 := { r with startTime := some t }
  (s.push_run r2 r2.isAnchor, r2)

/-! ## Time recorder (src/xshaper/recorders/time.py) -/

/-- The fields of `TimeRecord` written by `TimeRecorder` (defaults per
`model.py`: `wall = 0`, CPU fields `None`). -/
structure TimeRecord where
  wall : ℚ := 0
  self_cpu_usr : Option ℚ := none
  self_cpu_sys : Option ℚ := none
  deriving DecidableEq, Repr

/-- Result of `os.times()`: user and system CPU seconds. -/
structure OSTimes where
  user : ℚ
  system : ℚ
  deriving DecidableEq, Repr

/-- `TimeRecorder` after `start()`: the target record plus the captured
`start_timer` (`time.perf_counter()`) and `start_ostimes` (`os.times()`). -/
structure TimeRecorder where
  record : TimeRecord
  start_timer : ℚ
  start_ostimes : OSTimes
  deriving DecidableEq, Repr

/-- `TimeRecorder.start` called at monotonic time `t` with OS times `os`. -/
def TimeRecorder.start (record : TimeRecord) (t : ℚ) (os : OSTimes) : TimeRecorder :=
  { record := record, start_timer := t, start_ostimes := os }

/-- `TimeRecorder.update` called at monotonic time `t` with OS times `os`:
writes `wall`, `self_cpu_usr`, `self_cpu_sys` into the record. -/
def TimeRecorder.update (tr : TimeRecorder) (t : ℚ) (os : OSTimes) : TimeRecorder :=
  { tr with
    record :=
      { tr.record with
        wall := t - tr.start_timer
        self_cpu_usr := some (os.user - tr.start_ostimes.user)
        self_cpu_sys := some (os.system - tr.start_ostimes.system) } }

/-- `TimeRecorder.finish`: `pass`. -/
def TimeRecorder.finish (tr : TimeRecorder) : TimeRecorder := tr

/-! ## Compute recorder (src/xshaper/recorders/compute.py) -/

/-- The utilization fields of `CPURecord` written by
`ComputeRecorder.update` (defaults `None`). -/
structure CPURecord where
  avg_process_util : Option ℚ := none
  avg_system_util : Option ℚ := none
  deriving DecidableEq, Repr

/-- The peak fields of `MemoryRecord` written by `ComputeRecorder.update`
(defaults `None`). -/
structure MemoryRecord where
  peak_rss : Option ℚ := none
  peak_shared : Option ℚ := none
  deriving DecidableEq, Repr

/-- A `ComputeMeasurements` sample: monotonic `time`, system and process
CPU percentages, resident set size, and optional shared memory. -/
structure ComputeMeasurements where
  time : ℚ
  sys_pct : ℚ
  proc_pct : ℚ
  rss : ℚ
  shared : Option ℚ
  deriving DecidableEq, Repr

/-- The sub-records of `RunRecord` that `ComputeRecorder` touches. -/
structure CRecord where
  cpu : Option CPURecord := none
  memory : Option MemoryRecord := none
  deriving DecidableEq, Repr

/-- `ComputeRecorder` state: the target record, `_last_time` (absent
before the first `update`, modelled as `none`), the three accumulators,
and the internal peaks (class defaults `0`). -/
structure ComputeRecorder where
  record : CRecord
  last_time : Option ℚ := none
  tot_time : ℚ := 0
  tot_proc_pct : ℚ := 0
  tot_sys_pct : ℚ := 0
  peak_rss : ℚ := 0
  peak_shared : ℚ := 0
  deriving DecidableEq, Repr

/-- The peak-tracking tail of `ComputeRecorder.update` (compute.py lines
92-99): given the current internal peaks and the memory sub-record,
return the updated peaks and sub-record. -/
def updateMemPeaks (peakRss peakShared : ℚ) (m : ComputeMeasurements)
    (mem : MemoryRecord) : ℚ × ℚ × MemoryRecord :=
  let step1 : ℚ × MemoryRecord :=
    if m.rss > peakRss then (m.rss, { mem with peak_rss := some m.rss })
    else (peakRss, mem)
  let step2 : ℚ × MemoryRecord :=
    match m.shared with
    | some sh =>
        if sh > peakShared then (sh, { step1.2 with peak_shared := some sh })
        else (peakShared, step1.2)
    | none => (peakShared, step1.2)
  (step1.1, step2.1, step2.2)

/-- The accumulation step of `ComputeRecorder.update` (compute.py lines
81-86): `diff = metrics.time - _last_time`, then `_last_time = diff`
(line 83 stores the interval, not the sample time) and the three
accumulators grow. -/
def accumStep (cr : ComputeRecorder) (m : ComputeMeasurements) (lt : ℚ) :
    ComputeRecorder :=
  let diff := m.time - lt
  { cr with
    last_time := some diff
    tot_time := cr.tot_time + diff
    tot_proc_pct := cr.tot_proc_pct + diff * m.proc_pct
    tot_sys_pct := cr.tot_sys_pct + diff * m.sys_pct }

/-- The CPU-average step of `ComputeRecorder.update` (compute.py lines
88-90): when the CPU sub-record exists, write the running averages. -/
def writeCpuAvgs (cr : ComputeRecorder) : ComputeRecorder :=
  match cr.record.cpu with
  | some c =>
      { cr with
        record :=
          { cr.record with
            cpu := some
              { c with
                avg_process_util := some (cr.tot_proc_pct / cr.tot_time)
                avg_system_util := some (cr.tot_sys_pct / cr.tot_time) } } }
  | none => cr

/-- The memory-peak step of `ComputeRecorder.update` (compute.py lines
92-99): when the memory sub-record exists, apply `updateMemPeaks`. -/
def writeMemPeaks (cr : ComputeRecorder) (m : ComputeMeasurements) :
    ComputeRecorder :=
  match cr.record.memory with
  | some mem =>
      let res := updateMemPeaks cr.peak_rss cr.peak_shared m mem
      { cr with
        peak_rss := res.1
        peak_shared := res.2.1
        record := { cr.record with memory := some res.2.2 } }
  | none => cr

/-- `ComputeRecorder.update`.  The first call only records `_last_time`
and returns; a later call accumulates, writes the CPU averages, and
updates the memory peaks. -/
def ComputeRecorder.update (cr : ComputeRecorder) (m : ComputeMeasurements) :
    ComputeRecorder :=
  match cr.last_time with
  | none => { cr with last_time := some m.time }
  | some lt => writeMemPeaks (writeCpuAvgs (accumStep cr m lt)) m

/-- Fold a list of samples through `ComputeRecorder.update`. -/
def ComputeRecorder.updates (cr : ComputeRecorder) (ms : List ComputeMeasurements) :
    ComputeRecorder :=
  ms.foldl ComputeRecorder.update cr

/-- The `peak_rss` field of the run record's memory sub-record, when the
sub-record exists. -/
def ComputeRecorder.recPeakRss (cr : ComputeRecorder) : Option ℚ :=
  cr.record.memory.bind MemoryRecord.peak_rss

/-- The `peak_shared` field of the run record's memory sub-record, when
the sub-record exists. -/
def ComputeRecorder.recPeakShared (cr : ComputeRecorder) : Option ℚ :=
  cr.record.memory.bind MemoryRecord.peak_shared

/-- Order on optional peak values: a recorded peak may appear but, once
present, may only grow. -/
def optionLe (a b : Option ℚ) : Prop :=
  ∀ v, a = some v → ∃ w, b = some w ∧ v ≤ w

/-- The recorder invariant maintained over its lifecycle: any recorded
peak is bounded by the internal peak (true initially, when both record
peaks are unset and the internal peaks are `0`). -/
def PeaksWF (cr : ComputeRecorder) : Prop :=
  (∀ v, cr.recPeakRss = some v → v ≤ cr.peak_rss) ∧
  (∀ v, cr.recPeakShared = some v → v ≤ cr.peak_shared)

/-- `ComputeRecorder.start` in the ordinary run lifecycle (on a fresh
record): it installs a `CPURecord` and a `MemoryRecord` with the
utilization and peak fields at their defaults. -/
def ComputeRecorder.started : ComputeRecorder :=
  { record := { cpu := some {}, memory := some {} } }

/-! ## Begin/end operation sequences on the registry -/

/-- A registry operation: `begin` pushes a run (Run.begin), `finish` pops
it (Run.end calls `STATE.pop_run(self)`). -/
inductive RunOp where
  | begin (r : Run)
  | finish (r : Run)
  deriving DecidableEq, Repr

/-- The run begun by an op, if it is a `begin`. -/
def beginRun? : RunOp → Option Run
  | .begin r => some r
  | .finish _ => none

/-- The id ended by an op, if it is a `finish`. -/
def endId? : RunOp → Option Nat
  | .finish r => some r.id
  | .begin _ => none

/-- The runs begun over a history, in order. -/
def beginsOf (h : List RunOp) : List Run := h.filterMap beginRun?

/-- The ids ended over a history. -/
def endedIds (h : List RunOp) : List Nat := h.filterMap endId?

/-- Specification-side view of a history: the runs begun but not yet
ended, in order of beginning. -/
def openRuns (h : List RunOp) : List Run :=
  (beginsOf h).filter (fun r => decide (r.id ∉ endedIds h))

/-- Execute one registry operation. -/
def execStep (s : RunState) : RunOp → Except PopError RunState
  | .begin r => .ok (s.push_run r r.isAnchor)
  | .finish r => s.pop_run r

/-- Execute a history of registry operations left to right. -/
def execOps (s : RunState) : List RunOp → Except PopError RunState
  | [] => .ok s
  | op :: rest => (execStep s op).bind (fun s2 => execOps s2 rest)

/-! ## Monitor thread loop (src/xshaper/monitor.py) -/

/-- Python `int()` on a rational: truncation toward zero. -/
def pyInt (q : ℚ) : ℤ := if 0 ≤ q then ⌊q⌋ else ⌈q⌉

/-- A message on the signal socket: the two recognized byte strings, or
anything else. -/
inductive SigMsg where
  | update
  | shutdown
  | invalid (s : String)
  deriving DecidableEq, Repr

/-- A reply on the signal socket. -/
inductive SigReply where
  | updated
  | goodbye
  deriving DecidableEq, Repr

/-- An observable side effect of one loop iteration: an update of the
active runs, a save of the active runs, or a reply sent on the socket. -/
inductive MonEvent where
  | update
  | save
  | send (r : SigReply)
  deriving DecidableEq, Repr

/-- Monitor configuration: the two periods in seconds. -/
structure MonCfg where
  update_frequency : ℚ
  save_frequency : ℚ
  deriving DecidableEq, Repr

/-- The loop-carried variables of `MonitorThread.run`: `last_save`,
`last_update`, the `now` measured in the previous iteration, and the
`active` flag. -/
structure MonState where
  last_save : ℚ
  last_update : ℚ
  now : ℚ
  active : Bool
  deriving DecidableEq, Repr

/-- `MonitorThread._handle_signal` on message `msg` with current `active`
flag: returns the queued reply, the update-request flag, and the `active`
flag afterwards.  `shutdown` clears `active` and queues `goodbye`;
`update` queues `updated` and requests an update; anything else logs a
warning and changes nothing (no reply, no update). -/
def handle_signal (msg : SigMsg) (active : Bool) :
    Option SigReply × Bool × Bool :=
  match msg with
  | .shutdown => (some .goodbye, false, false)
  | .update => (some .updated, true, active)
  | .invalid _ => (none, false, active)

/-- The outcome of one iteration of `MonitorThread.run`'s loop body. -/
structure IterResult where
  timeout : ℤ
  polled : Bool
  events : List MonEvent
  next : MonState
  deriving DecidableEq, Repr

/-- One iteration of the loop body of `MonitorThread.run`.  `pending` is
the message poll would deliver if the loop polls; `nowFresh` is the
`perf_counter()` reading taken mid-iteration.  The wait timeout is
`int(min(save_wait, upd_wait) * 1000)` and polling happens only when it
exceeds 20 ms.  Periodic update/save fire when wall-clock time since
`last_update` / `last_save` is within 0.02 s of (or past) the period;
the loop body never reassigns `last_update` or `last_save`.  Events are
emitted in program order: update, then save, then the reply send. -/
def monIter (cfg : MonCfg) (st : MonState) (pending : Option SigMsg)
    (nowFresh : ℚ) : IterResult :=
  let save_wait := cfg.save_frequency - (st.now - st.last_save)
  let upd_wait := cfg.update_frequency - (st.now - st.last_update)
  let timeout := pyInt (min save_wait upd_wait * 1000)
  let polled : Bool := decide (timeout > 20)
  let ready := if polled then pending else none
  let sig :=
    match ready with
    | some msg => handle_signal msg st.active
    | none => (none, false, st.active)
  let reply := sig.1
  let now := nowFresh
  let update := sig.2.1 || decide (now - st.last_update - cfg.update_frequency > -(1/50 : ℚ))
  let save := decide (now - st.last_save - cfg.save_frequency > -(1/50 : ℚ))
  { timeout := timeout
    polled := polled
    events :=
      (if update then [MonEvent.update] else []) ++
      (if save then [MonEvent.save] else []) ++
      (match reply with
       | some r => [MonEvent.send r]
       | none => [])
    next :=
      { last_save := st.last_save
        last_update := st.last_update
        now := now
        active := sig.2.2 } }

/-! ## Atomic save (Run.save, src/xshaper/run.py lines 200-213) -/

/-- A file system: contents by path, `none` when absent. -/
def FileSys := String → Option String

/-- Write `content` at path `p` (other paths untouched). -/
def writeFile (fs : FileSys) (p content : String) : FileSys :=
  fun q => if q = p then some content else fs q

/-- Atomically rename `src` over `dst`. -/
def renameFile (fs : FileSys) (src dst : String) : FileSys :=
  fun q => if q = dst then fs src else if q = src then none else fs q

/-- The canonical record path `<run-id>.json`. -/
def runFileName (id : String) : String := id ++ ".json"

/-- The temporary sibling path `<run-id>.json.tmp`
(`runfile.with_suffix(".json.tmp")`). -/
def tmpFileName (id : String) : String := id ++ ".json.tmp"

/-- Every file-system state observable while `Run.save` for run `id`
writes `content`: the initial state, each intermediate state of the
(non-atomic) temp-file write modelled as every partial content
`content.take i`, and the state after the atomic rename of the temp file
over the canonical path. -/
def saveStates (fs : FileSys) (id content : String) : List FileSys :=
  let tmp := tmpFileName id
  fs ::
    ((List.range (content.length + 1)).map
      (fun i => writeFile fs tmp (content.take i))) ++
    [renameFile (writeFile fs tmp content) tmp (runFileName id)]

/-! ## Theorems -/

/-- C7: after `start()` at monotonic time `T0` with OS CPU counters
`os0`, a call to `update()` at `T1` with counters `os1` writes
`wall = T1 - T0`, `self_cpu_usr = u1 - u0` and `self_cpu_sys = s1 - s0`
into the run's time sub-record, and `finish()` changes nothing. -/
theorem timeRecorder_update_diffs (rec : TimeRecord) (T0 T1 : ℚ)
    (os0 os1 : OSTimes) :
    ((TimeRecorder.start rec T0 os0).update T1 os1).record.wall = T1 - T0 ∧
    ((TimeRecorder.start rec T0 os0).update T1 os1).record.self_cpu_usr =
      some (os1.user - os0.user) ∧
    ((TimeRecorder.start rec T0 os0).update T1 os1).record.self_cpu_sys =
      some (os1.system - os0.system) ∧
    ((TimeRecorder.start rec T0 os0).update T1 os1).finish =
      (TimeRecorder.start rec T0 os0).update T1 os1 :=
  ⟨rfl, rfl, rfl, rfl⟩

/-- C1: the code does not keep the previous sample time.  Line 83 of
compute.py stores the just-computed interval in `_last_time`, so on the
sample sequence `t=1`, `t=2` (proc 10), `t=3` (proc 40) the third call
uses `Δt = 3 - 1 = 2` instead of `3 - 2 = 1` and the recorder reports
`avg_process_util = 30`, while the claimed accumulation
`(1·10 + 1·40)/(1 + 1)` yields `25`. -/
theorem computeRecorder_lastTime_bug :
    (ComputeRecorder.updates ComputeRecorder.started
      [⟨1, 0, 0, 0, none⟩, ⟨2, 0, 10, 0, none⟩, ⟨3, 0, 40, 0, none⟩]).record.cpu =
      some { avg_process_util := some 30, avg_system_util := some 0 } ∧
    ((1 : ℚ) * 10 + 1 * 40) / (1 + 1) = 25 ∧ (30 : ℚ) ≠ 25 := by
  refine ⟨?_, by norm_num, by norm_num⟩
  norm_num [ComputeRecorder.updates, ComputeRecorder.update,
    ComputeRecorder.started, accumStep, writeCpuAvgs, writeMemPeaks,
    updateMemPeaks, List.foldl]

/-- C3 counterexample: a run constructed with no parent while both
stacks are empty records `root_id = None` and `anchor_id = None` (the
`RunRecord` defaults), not its own id as the claim states. -/
theorem rootRun_ids_counterexample :
    (mkRun {} 7 none false).rootId = none ∧
    (mkRun {} 7 none false).anchorId = none ∧
    (mkRun {} 7 none false).rootId ≠ some (mkRun {} 7 none false).id ∧
    (mkRun {} 7 none false).anchorId ≠ some (mkRun {} 7 none false).id := by
  refine ⟨rfl, rfl, by decide, by decide⟩

/-- C3 (amended): a run begun with no parent while both stacks are empty
keeps the record defaults `root_id = None` and `anchor_id = None`; the
registry nevertheless makes it the root and the first anchor, so a child
begun while it is active inherits `parent_id = root_id = anchor_id =`
the root run's id. -/
theorem rootRun_child_inherits (idr idc : Nat) (t : ℚ) :
    (mkRun {} idr none false).rootId = none ∧
    (mkRun {} idr none false).anchorId = none ∧
    (mkRun ((beginRun {} (mkRun {} idr none false) t).1) idc none false).parentId =
      some idr ∧
    (mkRun ((beginRun {} (mkRun {} idr none false) t).1) idc none false).rootId =
      some idr ∧
    (mkRun ((beginRun {} (mkRun {} idr none false) t).1) idc none false).anchorId =
      some idr := by
  refine ⟨rfl, rfl, ?_, ?_, ?_⟩ <;>
    simp [mkRun, beginRun, RunState.push_run, RunState.current, RunState.root,
      RunState.anchor]

/-- C10: a `Run` constructed with `parent=None` while the registry stack
is non-empty takes the top-of-stack run's id as its `parent_id`; and
`begin` (which stamps the start time and pushes the run) leaves the
already-captured `parent_id`, `root_id` and `anchor_id` untouched. -/
theorem runInit_captures_at_construction (s s2 : RunState) (top r : Run)
    (newId : Nat) (a : Bool) (t : ℚ) (h : s.current = some top) :
    (mkRun s newId none a).parentId = some top.id ∧
    (beginRun s2 r t).2.parentId = r.parentId ∧
    (beginRun s2 r t).2.rootId = r.rootId ∧
    (beginRun s2 r t).2.anchorId = r.anchorId := by
  refine ⟨?_, rfl, rfl, rfl⟩
  simp [mkRun, h]

/-- Witness for C10 at a concrete registry state. -/
theorem runInit_captures_witness :
    (RunState.current ⟨[⟨5, none, none, none, false, none⟩], []⟩ =
      some ⟨5, none, none, none, false, none⟩) ∧
    (mkRun ⟨[⟨5, none, none, none, false, none⟩], []⟩ 9 none false).parentId =
      some 5 :=
  ⟨by decide,
    (runInit_captures_at_construction ⟨[⟨5, none, none, none, false, none⟩], []⟩
      {} ⟨5, none, none, none, false, none⟩ ⟨9, none, none, none, false, none⟩
      9 false 0 (by decide)).1⟩

/-- C5: popping a run that is not the top of the active stack fails — an
`IndexError` on an empty stack, the `RuntimeError` otherwise — and,
since the Python code raises before any mutation, produces no successor
state: both stacks are left unchanged. -/
theorem popRun_nonTop_errors (s : RunState) (run : Run)
    (h : (s.current).map Run.id ≠ some run.id) :
    s.pop_run run =
      .error (if s.stack.isEmpty then PopError.indexError else PopError.notCurrent) := by
  obtain ⟨stack, anchors⟩ := s
  induction stack using List.reverseRecOn with
  | nil => rfl
  | append_singleton l a _ =>
      simp [RunState.current, List.getLast?_concat] at h
      simp [RunState.pop_run, List.getLast?_concat, h]

/-- Witness for C5: popping a non-top run from a singleton stack raises
the `RuntimeError`. -/
theorem popRun_nonTop_witness :
    ((RunState.current ⟨[⟨1, none, none, none, false, none⟩], []⟩).map Run.id ≠
      some (2 : Nat)) ∧
    RunState.pop_run ⟨[⟨1, none, none, none, false, none⟩], []⟩
      ⟨2, none, none, none, false, none⟩ = .error PopError.notCurrent :=
  ⟨by decide,
    popRun_nonTop_errors ⟨[⟨1, none, none, none, false, none⟩], []⟩
      ⟨2, none, none, none, false, none⟩ (by decide)⟩

lemma optionLe_refl (a : Option ℚ) : optionLe a a :=
  fun v hv => ⟨v, hv, le_refl v⟩

lemma optionLe_trans {a b c : Option ℚ} (h1 : optionLe a b) (h2 : optionLe b c) :
    optionLe a c := by
  intro v hv
  obtain ⟨w, hw, hvw⟩ := h1 v hv
  obtain ⟨u, hu, hwu⟩ := h2 w hw
  exact ⟨u, hu, le_trans hvw hwu⟩

lemma updateMemPeaks_rss_fields (pr ps : ℚ) (m : ComputeMeasurements)
    (mem : MemoryRecord) :
    (updateMemPeaks pr ps m mem).2.2.peak_rss =
      (if m.rss > pr then some m.rss else mem.peak_rss) ∧
    (updateMemPeaks pr ps m mem).1 = (if m.rss > pr then m.rss else pr) := by
  unfold updateMemPeaks
  dsimp only
  constructor
  · cases m.shared with
    | none => split_ifs <;> rfl
    | some sh =>
        dsimp only
        split_ifs <;> rfl
  · split_ifs <;> rfl

lemma updateMemPeaks_shared_fields (pr ps : ℚ) (m : ComputeMeasurements)
    (mem : MemoryRecord) :
    (updateMemPeaks pr ps m mem).2.2.peak_shared =
      (match m.shared with
       | some sh => if sh > ps then some sh else mem.peak_shared
       | none => mem.peak_shared) ∧
    (updateMemPeaks pr ps m mem).2.1 =
      (match m.shared with
       | some sh => if sh > ps then sh else ps
       | none => ps) := by
  unfold updateMemPeaks
  dsimp only
  constructor
  · cases m.shared with
    | none => split_ifs <;> rfl
    | some sh =>
        dsimp only
        split_ifs <;> rfl
  · cases m.shared with
    | none => rfl
    | some sh =>
        dsimp only
        split_ifs <;> rfl

lemma updateMemPeaks_peak_le (pr ps : ℚ) (m : ComputeMeasurements)
    (mem : MemoryRecord) :
    pr ≤ (updateMemPeaks pr ps m mem).1 ∧ ps ≤ (updateMemPeaks pr ps m mem).2.1 := by
  constructor
  · rw [(updateMemPeaks_rss_fields pr ps m mem).2]
    split_ifs with h
    · exact le_of_lt h
    · exact le_refl pr
  · rw [(updateMemPeaks_shared_fields pr ps m mem).2]
    cases m.shared with
    | none => exact le_refl ps
    | some sh =>
        dsimp only
        split_ifs with h
        · exact le_of_lt h
        · exact le_refl ps

lemma writeCpuAvgs_mem_fields (cr : ComputeRecorder) :
    (writeCpuAvgs cr).record.memory = cr.record.memory ∧
    (writeCpuAvgs cr).peak_rss = cr.peak_rss ∧
    (writeCpuAvgs cr).peak_shared = cr.peak_shared := by
  unfold writeCpuAvgs
  cases h : cr.record.cpu <;> simp

lemma accumStep_mem_fields (cr : ComputeRecorder) (m : ComputeMeasurements)
    (lt : ℚ) :
    (accumStep cr m lt).record = cr.record ∧
    (accumStep cr m lt).peak_rss = cr.peak_rss ∧
    (accumStep cr m lt).peak_shared = cr.peak_shared :=
  ⟨rfl, rfl, rfl⟩

lemma writeMemPeaks_eq_some (cr : ComputeRecorder) (m : ComputeMeasurements)
    (mem : MemoryRecord) (h : cr.record.memory = some mem) :
    writeMemPeaks cr m =
      { cr with
        peak_rss := (updateMemPeaks cr.peak_rss cr.peak_shared m mem).1
        peak_shared := (updateMemPeaks cr.peak_rss cr.peak_shared m mem).2.1
        record :=
          { cr.record with
            memory := some (updateMemPeaks cr.peak_rss cr.peak_shared m mem).2.2 } } := by
  unfold writeMemPeaks
  rw [h]

lemma writeMemPeaks_eq_none (cr : ComputeRecorder) (m : ComputeMeasurements)
    (h : cr.record.memory = none) : writeMemPeaks cr m = cr := by
  unfold writeMemPeaks
  rw [h]

lemma update_eq_some (cr : ComputeRecorder) (m : ComputeMeasurements) (lt : ℚ)
    (h : cr.last_time = some lt) :
    cr.update m = writeMemPeaks (writeCpuAvgs (accumStep cr m lt)) m := by
  unfold ComputeRecorder.update
  rw [h]

lemma update_eq_none (cr : ComputeRecorder) (m : ComputeMeasurements)
    (h : cr.last_time = none) :
    cr.update m = { cr with last_time := some m.time } := by
  unfold ComputeRecorder.update
  rw [h]

lemma update_peak_mono (cr : ComputeRecorder) (m : ComputeMeasurements) :
    cr.peak_rss ≤ (cr.update m).peak_rss ∧
    cr.peak_shared ≤ (cr.update m).peak_shared := by
  cases h : cr.last_time with
  | none => rw [update_eq_none cr m h]; exact ⟨le_refl _, le_refl _⟩
  | some lt =>
      rw [update_eq_some cr m lt h]
      have hc := writeCpuAvgs_mem_fields (accumStep cr m lt)
      have ha := accumStep_mem_fields cr m lt
      cases hm : (writeCpuAvgs (accumStep cr m lt)).record.memory with
      | none =>
          rw [writeMemPeaks_eq_none _ m hm, hc.2.1, hc.2.2, ha.2.1, ha.2.2]
          exact ⟨le_refl _, le_refl _⟩
      | some mem =>
          rw [writeMemPeaks_eq_some _ m mem hm]
          have hle := updateMemPeaks_peak_le (writeCpuAvgs (accumStep cr m lt)).peak_rss
            (writeCpuAvgs (accumStep cr m lt)).peak_shared m mem
          constructor
          · calc cr.peak_rss = (writeCpuAvgs (accumStep cr m lt)).peak_rss := by
                  rw [hc.2.1, ha.2.1]
              _ ≤ _ := hle.1
          · calc cr.peak_shared = (writeCpuAvgs (accumStep cr m lt)).peak_shared := by
                  rw [hc.2.2, ha.2.2]
              _ ≤ _ := hle.2

lemma writeMemPeaks_wf (cr : ComputeRecorder) (m : ComputeMeasurements)
    (hwf : PeaksWF cr) :
    PeaksWF (writeMemPeaks cr m) ∧
    optionLe cr.recPeakRss (writeMemPeaks cr m).recPeakRss ∧
    optionLe cr.recPeakShared (writeMemPeaks cr m).recPeakShared := by
  cases hm : cr.record.memory with
  | none =>
      rw [writeMemPeaks_eq_none cr m hm]
      exact ⟨hwf, optionLe_refl _, optionLe_refl _⟩
  | some mem =>
      rw [writeMemPeaks_eq_some cr m mem hm]
      have hwfr : ∀ v, mem.peak_rss = some v → v ≤ cr.peak_rss := by
        intro v hv
        exact hwf.1 v (by simp [ComputeRecorder.recPeakRss, hm, hv])
      have hwfs : ∀ v, mem.peak_shared = some v → v ≤ cr.peak_shared := by
        intro v hv
        exact hwf.2 v (by simp [ComputeRecorder.recPeakShared, hm, hv])
      have hr := updateMemPeaks_rss_fields cr.peak_rss cr.peak_shared m mem
      have hs := updateMemPeaks_shared_fields cr.peak_rss cr.peak_shared m mem
      refine ⟨⟨?_, ?_⟩, ?_, ?_⟩
      · intro v hv
        simp only [ComputeRecorder.recPeakRss, Option.bind] at hv
        rw [hr.1] at hv
        rw [hr.2]
        split_ifs at hv ⊢ with hgt
        · obtain rfl : m.rss = v := by injection hv
          exact le_refl _
        · exact hwfr v hv
      · intro v hv
        simp only [ComputeRecorder.recPeakShared, Option.bind] at hv
        rw [hs.1] at hv
        rw [hs.2]
        cases hsh : m.shared with
        | none =>
            rw [hsh] at hv
            exact hwfs v hv
        | some sh =>
            rw [hsh] at hv
            dsimp only at hv ⊢
            split_ifs at hv ⊢ with hgt
            · obtain rfl : sh = v := by injection hv
              exact le_refl _
            · exact hwfs v hv
      · intro v hv
        simp only [ComputeRecorder.recPeakRss, Option.bind, hm] at hv
        simp only [ComputeRecorder.recPeakRss, Option.bind]
        rw [hr.1]
        split_ifs with hgt
        · exact ⟨m.rss, rfl, le_of_lt (lt_of_le_of_lt (hwfr v hv) hgt)⟩
        · exact ⟨v, hv, le_refl v⟩
      · intro v hv
        simp only [ComputeRecorder.recPeakShared, Option.bind, hm] at hv
        simp only [ComputeRecorder.recPeakShared, Option.bind]
        rw [hs.1]
        cases hsh : m.shared with
        | none => exact ⟨v, hv, le_refl v⟩
        | some sh =>
            dsimp only
            split_ifs with hgt
            · exact ⟨sh, rfl, le_of_lt (lt_of_le_of_lt (hwfs v hv) hgt)⟩
            · exact ⟨v, hv, le_refl v⟩

lemma peaksWF_congr (cr cr2 : ComputeRecorder)
    (hm : cr2.record.memory = cr.record.memory)
    (hr : cr2.peak_rss = cr.peak_rss) (hs : cr2.peak_shared = cr.peak_shared) :
    cr2.recPeakRss = cr.recPeakRss ∧ cr2.recPeakShared = cr.recPeakShared ∧
    (PeaksWF cr → PeaksWF cr2) := by
  have h1 : cr2.recPeakRss = cr.recPeakRss := by
    simp [ComputeRecorder.recPeakRss, hm]
  have h2 : cr2.recPeakShared = cr.recPeakShared := by
    simp [ComputeRecorder.recPeakShared, hm]
  refine ⟨h1, h2, fun hwf => ⟨?_, ?_⟩⟩
  · intro v hv
    rw [h1] at hv
    rw [hr]
    exact hwf.1 v hv
  · intro v hv
    rw [h2] at hv
    rw [hs]
    exact hwf.2 v hv

lemma update_wf_mono (cr : ComputeRecorder) (m : ComputeMeasurements)
    (hwf : PeaksWF cr) :
    PeaksWF (cr.update m) ∧
    optionLe cr.recPeakRss (cr.update m).recPeakRss ∧
    optionLe cr.recPeakShared (cr.update m).recPeakShared := by
  cases h : cr.last_time with
  | none =>
      rw [update_eq_none cr m h]
      have hcg := peaksWF_congr cr { cr with last_time := some m.time } rfl rfl rfl
      exact ⟨hcg.2.2 hwf, hcg.1 ▸ optionLe_refl _, hcg.2.1 ▸ optionLe_refl _⟩
  | some lt =>
      rw [update_eq_some cr m lt h]
      have ha := accumStep_mem_fields cr m lt
      have hc := writeCpuAvgs_mem_fields (accumStep cr m lt)
      have hcg := peaksWF_congr cr (writeCpuAvgs (accumStep cr m lt))
        (by rw [hc.1, ha.1]) (by rw [hc.2.1, ha.2.1]) (by rw [hc.2.2, ha.2.2])
      have hw := writeMemPeaks_wf (writeCpuAvgs (accumStep cr m lt)) m (hcg.2.2 hwf)
      exact ⟨hw.1, hcg.1 ▸ hw.2.1, hcg.2.1 ▸ hw.2.2⟩

lemma updates_wf_mono (ms : List ComputeMeasurements) (cr : ComputeRecorder)
    (hwf : PeaksWF cr) :
    PeaksWF (cr.updates ms) ∧
    cr.peak_rss ≤ (cr.updates ms).peak_rss ∧
    cr.peak_shared ≤ (cr.updates ms).peak_shared ∧
    optionLe cr.recPeakRss (cr.updates ms).recPeakRss ∧
    optionLe cr.recPeakShared (cr.updates ms).recPeakShared := by
  induction ms generalizing cr with
  | nil => exact ⟨hwf, le_refl _, le_refl _, optionLe_refl _, optionLe_refl _⟩
  | cons m rest ih =>
      have h1 := update_wf_mono cr m hwf
      have h2 := update_peak_mono cr m
      have h3 := ih (cr.update m) h1.1
      have hcons : cr.updates (m :: rest) = (cr.update m).updates rest := rfl
      rw [hcons]
      exact ⟨h3.1, le_trans h2.1 h3.2.1, le_trans h2.2 h3.2.2.1,
        optionLe_trans h1.2.1 h3.2.2.2.1, optionLe_trans h1.2.2 h3.2.2.2.2⟩

/-- C6 counterexample: on the very first call to
`ComputeRecorder.update` the guard at compute.py line 77 returns before
the peak-tracking code, so a sample whose `rss = 100` exceeds the
current internal peak `0` updates neither the internal peak nor the
record's `peak_rss`. -/
theorem peak_firstCall_counterexample :
    ComputeRecorder.started.peak_rss = 0 ∧
    (100 : ℚ) > ComputeRecorder.started.peak_rss ∧
    (ComputeRecorder.started.update ⟨0, 50, 10, 100, none⟩).peak_rss = 0 ∧
    (ComputeRecorder.started.update ⟨0, 50, 10, 100, none⟩).record.memory =
      some { peak_rss := none, peak_shared := none } := by
  refine ⟨rfl, ?_, rfl, rfl⟩
  show (100 : ℚ) > 0
  norm_num

/-- C6 (amended): for every call to `ComputeRecorder.update` after the
first (`_last_time` present) on a state whose memory sub-record exists,
a sample whose `rss` exceeds the internal peak updates both the internal
peak and the record's `peak_rss` to it, and likewise for shared memory
when present; and across every sequence of updates from a well-formed
state (recorded peaks bounded by internal peaks, as holds after
`start()`), the internal and recorded peaks are monotonically
non-decreasing. -/
theorem peaks_update_and_monotone (cr : ComputeRecorder)
    (m : ComputeMeasurements) (lt : ℚ) (mem : MemoryRecord)
    (ms : List ComputeMeasurements) (hlt : cr.last_time = some lt)
    (hmem : cr.record.memory = some mem) (hwf : PeaksWF cr) :
    (m.rss > cr.peak_rss →
      (cr.update m).peak_rss = m.rss ∧ (cr.update m).recPeakRss = some m.rss) ∧
    (∀ sh, m.shared = some sh → sh > cr.peak_shared →
      (cr.update m).peak_shared = sh ∧
      (cr.update m).recPeakShared = some sh) ∧
    cr.peak_rss ≤ (cr.updates ms).peak_rss ∧
    cr.peak_shared ≤ (cr.updates ms).peak_shared ∧
    optionLe cr.recPeakRss (cr.updates ms).recPeakRss ∧
    optionLe cr.recPeakShared (cr.updates ms).recPeakShared := by
  have hmono := updates_wf_mono ms cr hwf
  have ha := accumStep_mem_fields cr m lt
  have hc := writeCpuAvgs_mem_fields (accumStep cr m lt)
  have hm2 : (writeCpuAvgs (accumStep cr m lt)).record.memory = some mem := by
    rw [hc.1, ha.1, hmem]
  have hpr : (writeCpuAvgs (accumStep cr m lt)).peak_rss = cr.peak_rss := by
    rw [hc.2.1, ha.2.1]
  have hps : (writeCpuAvgs (accumStep cr m lt)).peak_shared = cr.peak_shared := by
    rw [hc.2.2, ha.2.2]
  have hupd : cr.update m =
      writeMemPeaks (writeCpuAvgs (accumStep cr m lt)) m :=
    update_eq_some cr m lt hlt
  have hw := writeMemPeaks_eq_some (writeCpuAvgs (accumStep cr m lt)) m mem hm2
  have hr := updateMemPeaks_rss_fields (writeCpuAvgs (accumStep cr m lt)).peak_rss
    (writeCpuAvgs (accumStep cr m lt)).peak_shared m mem
  have hs := updateMemPeaks_shared_fields
    (writeCpuAvgs (accumStep cr m lt)).peak_rss
    (writeCpuAvgs (accumStep cr m lt)).peak_shared m mem
  refine ⟨?_, ?_, hmono.2.1, hmono.2.2.1, hmono.2.2.2.1, hmono.2.2.2.2⟩
  · intro hgt
    rw [hupd, hw]
    constructor
    · dsimp only
      rw [hr.2, hpr, if_pos hgt]
    · simp only [ComputeRecorder.recPeakRss, Option.bind]
      rw [hr.1, hpr, if_pos hgt]
  · intro sh hsh hgt
    rw [hupd, hw]
    constructor
    · dsimp only
      rw [hs.2, hsh, hps]
      dsimp only
      rw [if_pos hgt]
    · simp only [ComputeRecorder.recPeakShared, Option.bind]
      rw [hs.1, hsh, hps]
      dsimp only
      rw [if_pos hgt]

/-- Witness for C6 (amended): after `start()` and a first sample, a second
sample with `rss = 150` raises both the internal peak and the record's
`peak_rss` to `150`. -/
theorem peaks_update_witness :
    ((150 : ℚ) >
      (ComputeRecorder.started.update ⟨0, 50, 10, 100, none⟩).peak_rss) ∧
    ((ComputeRecorder.started.update ⟨0, 50, 10, 100, none⟩).update
      ⟨2, 60, 20, 150, none⟩).peak_rss = 150 ∧
    ((ComputeRecorder.started.update ⟨0, 50, 10, 100, none⟩).update
      ⟨2, 60, 20, 150, none⟩).recPeakRss = some 150 := by
  have h := (peaks_update_and_monotone
    (ComputeRecorder.started.update ⟨0, 50, 10, 100, none⟩)
    ⟨2, 60, 20, 150, none⟩ 0 {} [] rfl rfl
    ⟨fun v hv => Option.noConfusion hv, fun v hv => Option.noConfusion hv⟩).1
    (by show (150 : ℚ) > 0; norm_num)
  exact ⟨by show (150 : ℚ) > 0; norm_num, h.1, h.2⟩

lemma runFileName_ne_tmpFileName (id : String) :
    runFileName id ≠ tmpFileName id := by
  intro h
  have h2 := congrArg String.length h
  simp [runFileName, tmpFileName, String.length_append] at h2
  exact absurd h2 (by decide)

/-- C9: every file-system state observable during `Run.save` — before the
save, during the non-atomic write of the temporary sibling
`<run-id>.json.tmp`, and after the atomic rename — holds either the
previous content or the complete new content at the canonical path
`<run-id>.json`; a partially written record is only ever visible at the
temporary path. -/
theorem save_atomic (fs : FileSys) (id content : String) (g : FileSys)
    (hg : g ∈ saveStates fs id content) :
    g (runFileName id) = fs (runFileName id) ∨
    g (runFileName id) = some content := by
  have hne := runFileName_ne_tmpFileName id
  simp only [saveStates, List.mem_cons, List.mem_append, List.mem_map,
    List.mem_range, List.mem_singleton] at hg
  rcases hg with (rfl | ⟨i, _, rfl⟩) | (rfl | h0)
  · exact Or.inl rfl
  · left
    show (if runFileName id = tmpFileName id then some (content.take i)
          else fs (runFileName id)) = fs (runFileName id)
    rw [if_neg hne]
  · right
    show (if runFileName id = runFileName id then
            writeFile fs (tmpFileName id) content (tmpFileName id)
          else if runFileName id = tmpFileName id then none
          else writeFile fs (tmpFileName id) content (runFileName id)) =
         some content
    rw [if_pos rfl]
    show (if tmpFileName id = tmpFileName id then some content
          else fs (tmpFileName id)) = some content
    rw [if_pos rfl]
  · exact absurd h0 (List.not_mem_nil g)

/-- Witness for C9: the initial state of a save trace trivially holds the
previous content at the canonical path. -/
theorem save_atomic_witness :
    ((fun _ => none : FileSys) ∈ saveStates (fun _ => none) "r" "c") ∧
    ((fun _ => none : FileSys) (runFileName "r") =
        (fun _ => none : FileSys) (runFileName "r") ∨
      (fun _ => none : FileSys) (runFileName "r") = some "c") :=
  ⟨List.mem_cons_self _ _,
    save_atomic (fun _ => none) "r" "c" (fun _ => none)
      (List.mem_cons_self _ _)⟩

/-- C2: the loop body of `MonitorThread.run` never reassigns
`last_update` (or `last_save`), so elapsed time is measured from thread
start, not from the last performed update.  With `update_frequency =
0.5` and `save_frequency = 5`, starting at time `0`: the iteration at
`now = 0.5` performs a periodic update, and the very next iteration at
`now = 0.51` — only `0.01 s` later, far less than `updatePeriod − 20ms =
0.48 s` — performs another periodic update, contradicting the claimed
spacing of approximately `updatePeriod` between consecutive periodic
updates. -/
theorem monitor_period_counterexample :
    (MonEvent.update ∈ (monIter ⟨1/2, 5⟩ ⟨0, 0, 0, true⟩ none (1/2)).events) ∧
    ((monIter ⟨1/2, 5⟩ ⟨0, 0, 0, true⟩ none (1/2)).next = ⟨0, 0, 1/2, true⟩) ∧
    (MonEvent.update ∈
      (monIter ⟨1/2, 5⟩ ⟨0, 0, 1/2, true⟩ none (51/100)).events) ∧
    ((51/100 : ℚ) - 1/2 = 1/100) ∧
    ((1/100 : ℚ) < 1/2 - 1/50) := by
  refine ⟨?_, ?_, ?_, by norm_num, by norm_num⟩ <;>
    norm_num [monIter, handle_signal]

/-- C8: `_handle_signal` on any message other than `update` or
`shutdown` queues no reply, requests no update, and leaves the `active`
flag unchanged; a loop iteration receiving such a message (with neither
periodic deadline reached) produces no side effect at all and keeps
running; and an iteration receiving `update` while polling emits the
update, then any save, and sends the `updated` acknowledgment only after
those side effects, as the last event of the iteration. -/
theorem signal_protocol (cfg : MonCfg) (st : MonState) (s : String)
    (fresh : ℚ)
    (hu : ¬ (fresh - st.last_update - cfg.update_frequency > -(1/50 : ℚ)))
    (hs : ¬ (fresh - st.last_save - cfg.save_frequency > -(1/50 : ℚ)))
    (hp : (monIter cfg st (some .update) fresh).polled = true) :
    (∀ a, handle_signal (.invalid s) a = (none, false, a)) ∧
    ((monIter cfg st (some (.invalid s)) fresh).events = [] ∧
     (monIter cfg st (some (.invalid s)) fresh).next.active = st.active) ∧
    (∃ mid, (monIter cfg st (some .update) fresh).events =
      MonEvent.update :: mid ++ [MonEvent.send .updated]) := by
  simp only [monIter] at hp
  have hP := of_decide_eq_true hp
  refine ⟨fun a => rfl, ?_, ?_⟩
  · constructor <;>
      · by_cases hQ : pyInt ((min (cfg.save_frequency - (st.now - st.last_save))
            (cfg.update_frequency - (st.now - st.last_update))) * 1000) > 20 <;>
          simp [monIter, handle_signal, hQ, hu, hs] <;>
          constructor <;> linarith
  · by_cases hsv : fresh - st.last_save - cfg.save_frequency > -(1/50 : ℚ)
    · refine ⟨[MonEvent.save], ?_⟩
      simp [monIter, handle_signal, hP, hsv]
      rw [if_pos (by linarith)]
      rfl
    · refine ⟨[], ?_⟩
      simp [monIter, handle_signal, hP, hsv]
      linarith

/-- Witness for C8 at a concrete configuration and iteration. -/
theorem signal_protocol_witness :
    (¬ ((1 : ℚ)/10 - 0 - 1/2 > -(1/50 : ℚ))) ∧
    (monIter ⟨1/2, 5⟩ ⟨0, 0, 0, true⟩ (some (.invalid "bogus")) (1/10)).events =
      [] ∧
    (∃ mid, (monIter ⟨1/2, 5⟩ ⟨0, 0, 0, true⟩ (some .update) (1/10)).events =
      MonEvent.update :: mid ++ [MonEvent.send .updated]) := by
  have h := signal_protocol ⟨1/2, 5⟩ ⟨0, 0, 0, true⟩ "bogus" (1/10)
    (by norm_num) (by norm_num) (by norm_num [monIter, pyInt])
  exact ⟨by norm_num, h.2.1.1, h.2.2⟩

lemma execOps_append (s : RunState) (h : List RunOp) (op : RunOp) :
    execOps s (h ++ [op]) = (execOps s h).bind (fun s2 => execStep s2 op) := by
  induction h generalizing s with
  | nil =>
      show (execStep s op).bind (fun s2 => execOps s2 []) = execStep s op
      cases execStep s op <;> rfl
  | cons o rest ih =>
      show (execStep s o).bind (fun s2 => execOps s2 (rest ++ [op])) = _
      cases e : execStep s o with
      | error err => simp [execOps, e, Except.bind]
      | ok s2 => simp [execOps, e, Except.bind, ih]

lemma beginsOf_append_begin (h : List RunOp) (r : Run) :
    beginsOf (h ++ [.begin r]) = beginsOf h ++ [r] := by
  simp [beginsOf, List.filterMap_append, beginRun?]

lemma beginsOf_append_finish (h : List RunOp) (r : Run) :
    beginsOf (h ++ [.finish r]) = beginsOf h := by
  simp [beginsOf, List.filterMap_append, beginRun?]

lemma endedIds_append_begin (h : List RunOp) (r : Run) :
    endedIds (h ++ [.begin r]) = endedIds h := by
  simp [endedIds, List.filterMap_append, endId?]

lemma endedIds_append_finish (h : List RunOp) (r : Run) :
    endedIds (h ++ [.finish r]) = endedIds h ++ [r.id] := by
  simp [endedIds, List.filterMap_append, endId?]

lemma execOps_stack : ∀ (h : List RunOp) (s : RunState),
    ((beginsOf h).map Run.id).Nodup → execOps {} h = .ok s →
    s.stack = openRuns h ∧ ∀ i ∈ endedIds h, i ∈ (beginsOf h).map Run.id := by
  intro h
  induction h using List.reverseRecOn with
  | nil =>
      intro s _ he
      have hs : ({} : RunState) = s := by simpa [execOps] using he
      subst hs
      exact ⟨rfl, fun i hi => by simp [endedIds] at hi⟩
  | append_singleton rest op ih =>
      intro s hnd he
      rw [execOps_append] at he
      cases hrest : execOps {} rest with
      | error e => rw [hrest] at he; exact absurd he (by simp [Except.bind])
      | ok s1 =>
          rw [hrest] at he
          replace he : execStep s1 op = .ok s := he
          cases op with
          | begin r =>
              rw [beginsOf_append_begin, List.map_append, List.map_singleton] at hnd
              rw [List.nodup_append] at hnd
              obtain ⟨hnd1, -, hdisj⟩ := hnd
              have hnotin : r.id ∉ (beginsOf rest).map Run.id := by
                intro hmem
                exact hdisj hmem (List.mem_singleton_self _)
              obtain ⟨hstack, hsub⟩ := ih s1 hnd1 hrest
              have hs : s = s1.push_run r r.isAnchor := by
                have := he
                simp only [execStep, Except.ok.injEq] at this
                exact this.symm
              have hnp : decide (r.id ∈ endedIds rest) = false :=
                decide_eq_false (fun hmem => hnotin (hsub r.id hmem))
              constructor
              · rw [openRuns, beginsOf_append_begin, endedIds_append_begin,
                  List.filter_append]
                have h1 : (beginsOf rest).filter
                    (fun x => decide (x.id ∉ endedIds rest)) = openRuns rest := rfl
                rw [h1, ← hstack, hs]
                show s1.stack ++ [r] = s1.stack ++ List.filter _ [r]
                congr 1
                simp [List.filter_singleton, hnp]
              · intro i hi
                rw [endedIds_append_begin] at hi
                rw [beginsOf_append_begin, List.map_append]
                exact List.mem_append_left _ (hsub i hi)
          | finish r =>
              rw [beginsOf_append_finish] at hnd
              obtain ⟨hstack, hsub⟩ := ih s1 hnd hrest
              cases hl : s1.stack.getLast? with
              | none =>
                  simp only [execStep, RunState.pop_run, hl] at he
                  exact absurd he (by simp)
              | some top =>
                  simp only [execStep, RunState.pop_run, hl] at he
                  by_cases htop : top.id = r.id
                  · rw [if_pos htop, Except.ok.injEq] at he
                    have hsstack : s.stack = s1.stack.dropLast := by
                      rw [← he]
                    obtain ⟨A, hA⟩ := List.getLast?_eq_some_iff.mp hl
                    have hAd : s1.stack.dropLast = A := by
                      rw [hA, List.dropLast_concat]
                    have hAtop : A ++ [top] = openRuns rest := by
                      rw [← hA, hstack]
                    have hopen_nodup : ((openRuns rest).map Run.id).Nodup :=
                      List.Nodup.sublist
                        (List.Sublist.map Run.id (List.filter_sublist _)) hnd
                    have hnodup2 : ((A ++ [top]).map Run.id).Nodup := by
                      rw [hAtop]; exact hopen_nodup
                    have htopA : top.id ∉ A.map Run.id := by
                      rw [List.map_append, List.map_singleton,
                        List.nodup_append] at hnodup2
                      intro hmem
                      exact hnodup2.2.2 hmem (List.mem_singleton_self _)
                    constructor
                    · rw [hsstack, hAd, openRuns, beginsOf_append_finish,
                        endedIds_append_finish]
                      have hfeq : (beginsOf rest).filter
                          (fun x => decide (x.id ∉ endedIds rest ++ [r.id])) =
                          (openRuns rest).filter
                            (fun x => decide (x.id ≠ r.id)) := by
                        rw [openRuns, List.filter_filter]
                        apply List.filter_congr
                        intro x _
                        simp [List.mem_append, not_or]
                        exact Bool.and_comm _ _
                      rw [hfeq, ← hAtop, List.filter_append]
                      have hfA : A.filter (fun x => decide (x.id ≠ r.id)) = A := by
                        apply List.filter_eq_self.mpr
                        intro x hx
                        apply decide_eq_true
                        intro hxr
                        apply htopA
                        rw [htop, ← hxr]
                        exact List.mem_map_of_mem Run.id hx
                      rw [hfA, List.filter_singleton]
                      simp [htop]
                    · intro i hi
                      rw [endedIds_append_finish] at hi
                      rw [beginsOf_append_finish]
                      rcases List.mem_append.mp hi with hi1 | hi2
                      · exact hsub i hi1
                      · have hir : i = r.id := by simpa using hi2
                        subst hir
                        have htopmem : top ∈ openRuns rest := by
                          rw [← hAtop]
                          exact List.mem_append_right _
                            (List.mem_singleton_self top)
                        have htopbeg : top ∈ beginsOf rest :=
                          List.mem_of_mem_filter htopmem
                        rw [← htop]
                        exact List.mem_map_of_mem Run.id htopbeg
                  · rw [if_neg htop] at he
                    exact absurd he (by simp)

/-- C4: for every history of begin/end operations that executes without
error from the empty registry (strict LIFO nesting, fresh uuid4 ids),
the registry's `current` equals the most recently begun run that has not
yet been ended — the last element of the open-run list — and is `None`
exactly when no run remains open. -/
theorem current_is_last_open (h : List RunOp) (s : RunState)
    (hnd : ((beginsOf h).map Run.id).Nodup) (he : execOps {} h = .ok s) :
    s.current = (openRuns h).getLast? := by
  rw [RunState.current, (execOps_stack h s hnd he).1]

/-- Witness for C4 on the history begin 1, begin 2, end 2: the current
run is run 1, the most recently begun run still open. -/
theorem current_is_last_open_witness :
    ((beginsOf [RunOp.begin ⟨1, none, none, none, false, none⟩,
        RunOp.begin ⟨2, some 1, none, none, false, none⟩,
        RunOp.finish ⟨2, some 1, none, none, false, none⟩]).map Run.id).Nodup ∧
    (execOps {} [RunOp.begin ⟨1, none, none, none, false, none⟩,
        RunOp.begin ⟨2, some 1, none, none, false, none⟩,
        RunOp.finish ⟨2, some 1, none, none, false, none⟩] =
      .ok ⟨[⟨1, none, none, none, false, none⟩],
           [⟨1, none, none, none, false, none⟩]⟩) ∧
    RunState.current ⟨[⟨1, none, none, none, false, none⟩],
        [⟨1, none, none, none, false, none⟩]⟩ =
      (openRuns [RunOp.begin ⟨1, none, none, none, false, none⟩,
        RunOp.begin ⟨2, some 1, none, none, false, none⟩,
        RunOp.finish ⟨2, some 1, none, none, false, none⟩]).getLast? :=
  ⟨by decide, by rfl,
    current_is_last_open _ _ (by decide) (by rfl)⟩

end XShaper
